import Mathlib

/-!
Shallow embedding of src/server/src/aggregator.rs from the keyrock_challenge
repository: the order-book Level data model, the recursive two-way merge of
two depth-10 sorted level arrays, and the Aggregator process loop with its
cross-source lead counters.  Prices and amounts (f64 in the source) are
modelled as rationals; every concrete fixture appearing below uses values on
which f64 arithmetic and comparison are exact.  A Rust panic (unknown source
id, out-of-bounds array index, unwrap of a missing value) is modelled as the
Option value none.  The broadcast channel is not modelled; the Summary handed
to it, together with the optional lead warning, is returned as the output of
process.
-/

def DEPTH : Nat := 10

def LEAD_TOLERANCE : Nat := 3

structure Level where
  price : ℚ
  amount : ℚ
  exchange : String
deriving DecidableEq, Repr

def copy_level (level : Level) : Level :=
  { price := level.price, amount := level.amount, exchange := level.exchange }

/-- One step of Aggregator::merge (aggregator.rs lines 159-202): choose the
level to push and the advanced cursor pair.  Array indexing returns none on an
out-of-bounds access, modelling the Rust panic. -/
def mergeStep (levels_01 levels_02 : List Level) (index_01 index_02 : Nat)
    (side : Bool) : Option (Level × Nat × Nat) :=
  if side then
    -- asks
    if DEPTH ≤ index_01 then
      (levels_02.get? index_02).map fun lvl => (copy_level lvl, index_01, index_02 + 1)
    else if DEPTH ≤ index_02 then
      (levels_01.get? index_01).map fun lvl => (copy_level lvl, index_01 + 1, index_02)
    else
      (levels_01.get? index_01).bind fun level_01 =>
        (levels_02.get? index_02).map fun level_02 =>
          if level_01.price > level_02.price then
            (copy_level level_02, index_01, index_02 + 1)
          else
            (copy_level level_01, index_01 + 1, index_02)
  else
    -- bids
    if DEPTH ≤ index_01 then
      (levels_02.get? index_02).map fun lvl => (copy_level lvl, index_01, index_02 + 1)
    else if DEPTH ≤ index_02 then
      (levels_01.get? index_01).map fun lvl => (copy_level lvl, index_01 + 1, index_02)
    else
      (levels_01.get? index_01).bind fun level_01 =>
        (levels_02.get? index_02).map fun level_02 =>
          if level_01.price > level_02.price then
            (copy_level level_01, index_01 + 1, index_02)
          else
            (copy_level level_02, index_01, index_02 + 1)

/-- Fuel-indexed form of Aggregator::merge.  The Rust recursion terminates
because every call either returns at the capacity guard or pushes exactly one
level; the fuel argument is the remaining capacity, the exact measure of that
recursion.  The wrapper merge below supplies it, and merge_eq recovers the
literal recursive shape of the source. -/
def mergeF (levels_01 levels_02 : List Level) (side : Bool) (cap : Nat) :
    Nat → List Level → Nat → Nat → Option (List Level)
  | 0, merged, _, _ => if merged.length = cap then some merged else none
  | fuel + 1, merged, index_01, index_02 =>
    if merged.length = cap then
      some merged
    else
      match mergeStep levels_01 levels_02 index_01 index_02 side with
      | none => none
      | some (lvl, n1, n2) =>
        mergeF levels_01 levels_02 side cap fuel (merged ++ [lvl]) n1 n2

/-- Aggregator::merge (aggregator.rs lines 147-212).  The accumulator merged
is the Vec being filled, cap its capacity, and the result is the final Vec
contents, or none if the recursion would index an input array out of bounds. -/
def merge (merged : List Level) (levels_01 levels_02 : List Level)
    (index_01 index_02 : Nat) (side : Bool) (cap : Nat) : Option (List Level) :=
  mergeF levels_01 levels_02 side cap (cap - merged.length) merged index_01 index_02

structure OrderbookSnapshot where
  bids : List Level
  asks : List Level
deriving DecidableEq, Repr

structure Summary where
  spread : ℚ
  bids : List Level
  asks : List Level
deriving DecidableEq, Repr

/-- State of the Aggregator struct (aggregator.rs lines 19-30).  The spmc
broadcast handle is not part of the state model; what would be broadcast is
returned by process instead. -/
structure Aggregator where
  best_bids_01 : Option (List Level)
  best_bids_02 : Option (List Level)
  best_asks_01 : Option (List Level)
  best_asks_02 : Option (List Level)
  exchange_01_name : String
  exchange_02_name : String
  lead_01 : Nat
  lead_02 : Nat
deriving DecidableEq, Repr

def Aggregator.new (exchange_01_name exchange_02_name : String) : Aggregator :=
  { best_bids_01 := none
    best_bids_02 := none
    best_asks_01 := none
    best_asks_02 := none
    exchange_01_name := exchange_01_name
    exchange_02_name := exchange_02_name
    lead_01 := 0
    lead_02 := 0 }

def stream_exceeded_lead_tolerance (lead : Nat) : Bool :=
  decide (LEAD_TOLERANCE ≤ lead)

/-- Models log_lead_warning (aggregator.rs lines 135-140): the observable
content of the printed warning, namely the exchange name and the lead. -/
def log_lead_warning (exchange_name : String) (lead : Nat) : String × Nat :=
  (exchange_name, lead)

/-- The publication block of process (aggregator.rs lines 79-128), which reads
only the four stored depth arrays of the Aggregator state.  Each Rust unwrap
or first() on a possibly missing value is an Option bind. -/
def publish (st : Aggregator) : Option Summary :=
  if st.best_bids_01.isSome && st.best_bids_02.isSome then
    st.best_bids_01.bind fun bids_01 =>
      st.best_bids_02.bind fun bids_02 =>
        st.best_asks_01.bind fun asks_01 =>
          st.best_asks_02.bind fun asks_02 =>
            (merge [] bids_01 bids_02 0 0 false DEPTH).bind fun merged_best_bids =>
              (merge [] asks_01 asks_02 0 0 true DEPTH).bind fun merged_best_asks =>
                merged_best_asks.head?.bind fun first_ask =>
                  merged_best_bids.head?.map fun first_bid =>
                    { spread := first_ask.price - first_bid.price
                      bids := merged_best_bids
                      asks := merged_best_asks }
  else if st.best_bids_01.isSome then
    st.best_bids_01.bind fun bids_01 =>
      st.best_asks_01.bind fun asks_01 =>
        asks_01.head?.bind fun first_ask =>
          bids_01.head?.map fun first_bid =>
            { spread := first_ask.price - first_bid.price
              bids := bids_01
              asks := asks_01 }
  else
    st.best_bids_02.bind fun bids_02 =>
      st.best_asks_02.bind fun asks_02 =>
        asks_02.head?.bind fun first_ask =>
          bids_02.head?.map fun first_bid =>
            { spread := first_ask.price - first_bid.price
              bids := bids_02
              asks := asks_02 }

/-- Observable effects of one process call: the warning printed by
log_lead_warning, if any, and the Summary handed to broadcast. -/
structure Output where
  warning : Option (String × Nat)
  summary : Summary
deriving DecidableEq, Repr

/-- Aggregator::process (aggregator.rs lines 50-129).  Returns none exactly
where the Rust code panics; otherwise returns the updated state together with
the observable output.  The source faithfully reproduced here includes the
assignment lead_02 = 1 (line 68, where the parallel branch uses an increment)
and the source-1 branch checking lead_01 against the tolerance (line 70)
while logging lead_02. -/
def process (st : Aggregator) (source_id : Nat) (snapshot : OrderbookSnapshot) :
    Option (Aggregator × Output) :=
  match source_id with
  | 0 =>
    let st1 : Aggregator :=
      { st with
        best_bids_01 := some snapshot.bids
        best_asks_01 := some snapshot.asks
        lead_01 := st.lead_01 + 1
        lead_02 := 0 }
    let warning : Option (String × Nat) :=
      if stream_exceeded_lead_tolerance st1.lead_01 then
        some (log_lead_warning st1.exchange_01_name st1.lead_01)
      else
        none
    (publish st1).map fun s => (st1, { warning := warning, summary := s })
  | 1 =>
    let st1 : Aggregator :=
      { st with
        best_bids_02 := some snapshot.bids
        best_asks_02 := some snapshot.asks
        lead_01 := 0
        lead_02 := 1 }
    let warning : Option (String × Nat) :=
      if stream_exceeded_lead_tolerance st1.lead_01 then
        some (log_lead_warning st1.exchange_02_name st1.lead_02)
      else
        none
    (publish st1).map fun s => (st1, { warning := warning, summary := s })
  | _ => none

/-- The best-first order of a side: for asks (side = true) ascending price,
for bids (side = false) descending price. -/
def sideLE (side : Bool) (a b : Level) : Prop :=
  if side then a.price ≤ b.price else b.price ≤ a.price

instance (side : Bool) : DecidableRel (sideLE side) := fun a b =>
  decidable_of_iff (if side then a.price ≤ b.price else b.price ≤ a.price) Iff.rfl

/-- A list is sorted best-first for the given side. -/
def sortedSide (side : Bool) (l : List Level) : Prop :=
  List.Chain' (sideLE side) l

/-- Executable check for sortedSide, used for deciding it on fixtures. -/
def sortedSideB (side : Bool) : List Level → Bool
  | [] => true
  | [_] => true
  | a :: b :: rest => decide (sideLE side a b) && sortedSideB side (b :: rest)

theorem sortedSideB_iff (side : Bool) :
    ∀ l : List Level, sortedSideB side l = true ↔ sortedSide side l
  | [] => by simp [sortedSideB, sortedSide]
  | [a] => by simp [sortedSideB, sortedSide]
  | a :: b :: rest => by
    rw [sortedSide, List.chain'_cons, sortedSideB, Bool.and_eq_true,
      decide_eq_true_eq, sortedSideB_iff side (b :: rest)]
    exact Iff.rfl

instance (side : Bool) (l : List Level) : Decidable (sortedSide side l) :=
  decidable_of_iff _ (sortedSideB_iff side l)

theorem copy_level_eq (level : Level) : copy_level level = level := rfl

theorem sideLE_refl (side : Bool) (a : Level) : sideLE side a a := by
  cases side <;> simp [sideLE]

theorem sideLE_trans {side : Bool} {a b c : Level}
    (hab : sideLE side a b) (hbc : sideLE side b c) : sideLE side a c := by
  cases side <;> simp only [sideLE, if_true, if_false] at *
  · exact le_trans hbc hab
  · exact le_trans hab hbc

instance (side : Bool) : IsTrans Level (sideLE side) :=
  ⟨fun _ _ _ => sideLE_trans⟩

theorem sortedSide_get {side : Bool} {l : List Level} (hs : sortedSide side l)
    {i j : Nat} {a b : Level} (hij : i ≤ j)
    (ha : l.get? i = some a) (hb : l.get? j = some b) : sideLE side a b := by
  rcases Nat.lt_or_ge i j with hlt | hge
  · have hp : List.Pairwise (sideLE side) l := List.chain'_iff_pairwise.mp hs
    obtain ⟨hi, hga⟩ := List.get?_eq_some.mp ha
    obtain ⟨hj, hgb⟩ := List.get?_eq_some.mp hb
    have := List.pairwise_iff_get.mp hp ⟨i, hi⟩ ⟨j, hj⟩ hlt
    rwa [hga, hgb] at this
  · have hij2 : i = j := le_antisymm hij hge
    subst hij2
    rw [ha] at hb
    cases hb
    exact sideLE_refl side a

/-- The entry y occurs in l at or after cursor position i. -/
def inRest (l : List Level) (i : Nat) (y : Level) : Prop :=
  ∃ j, i ≤ j ∧ l.get? j = some y

theorem inRest_mono {l : List Level} {i k : Nat} (h : i ≤ k) {y : Level}
    (hy : inRest l k y) : inRest l i y := by
  obtain ⟨j, hj, hg⟩ := hy
  exact ⟨j, le_trans h hj, hg⟩

theorem not_inRest_of_length_le {l : List Level} {i : Nat} (h : l.length ≤ i)
    (y : Level) : ¬ inRest l i y := by
  rintro ⟨j, hj, hg⟩
  rw [List.get?_eq_none.mpr (le_trans h hj)] at hg
  cases hg

theorem inRest_mem {l : List Level} {i : Nat} {y : Level} (hy : inRest l i y) :
    y ∈ l := by
  obtain ⟨j, _, hg⟩ := hy
  exact List.get?_mem hg

/-- x is at or below (in the side order) every entry still unconsumed at
cursor pair (i1, i2). -/
def lowerRest (side : Bool) (l1 l2 : List Level) (i1 i2 : Nat) (x : Level) : Prop :=
  ∀ y, inRest l1 i1 y ∨ inRest l2 i2 y → sideLE side x y

theorem sideLE_false_iff (a b : Level) : sideLE false a b ↔ b.price ≤ a.price := by
  simp [sideLE]

theorem sideLE_true_iff (a b : Level) : sideLE true a b ↔ a.price ≤ b.price := by
  simp [sideLE]

/-- One merge step on two depth arrays with at least one unconsumed cursor
always succeeds, consumes exactly one entry, and (for sorted inputs) the
chosen level is a bound for everything still unconsumed. -/
theorem mergeStep_spec (side : Bool) {l1 l2 : List Level}
    (hl1 : l1.length = DEPTH) (hl2 : l2.length = DEPTH)
    (i1 i2 : Nat) (hav : i1 < DEPTH ∨ i2 < DEPTH) :
    ∃ lvl n1 n2, mergeStep l1 l2 i1 i2 side = some (lvl, n1, n2) ∧
      (inRest l1 i1 lvl ∨ inRest l2 i2 lvl) ∧
      i1 ≤ n1 ∧ i2 ≤ n2 ∧
      (DEPTH - n1) + (DEPTH - n2) + 1 = (DEPTH - i1) + (DEPTH - i2) ∧
      (sortedSide side l1 → sortedSide side l2 →
        lowerRest side l1 l2 n1 n2 lvl) := by
  by_cases h1 : DEPTH ≤ i1
  · have hi2 : i2 < DEPTH := by omega
    have hgt2 : i2 < l2.length := by omega
    obtain ⟨b, hb⟩ : ∃ b, l2.get? i2 = some b :=
      ⟨l2.get ⟨i2, hgt2⟩, List.get?_eq_get hgt2⟩
    have hb2 : l2[i2]? = some b := (List.get?_eq_getElem? l2 i2) ▸ hb
    refine ⟨b, i1, i2 + 1, ?_, Or.inr ⟨i2, le_refl _, hb⟩, le_refl _,
      Nat.le_succ _, by omega, ?_⟩
    · cases side <;> simp [mergeStep, h1, hb2, copy_level_eq]
    · intro _ s2 y hy
      rcases hy with hy | ⟨j, hj, hg⟩
      · exact absurd hy (not_inRest_of_length_le (by omega) y)
      · exact sortedSide_get s2 (by omega) hb hg
  · push_neg at h1
    by_cases h2 : DEPTH ≤ i2
    · have hgt1 : i1 < l1.length := by omega
      obtain ⟨a, ha⟩ : ∃ a, l1.get? i1 = some a :=
        ⟨l1.get ⟨i1, hgt1⟩, List.get?_eq_get hgt1⟩
      have ha2 : l1[i1]? = some a := (List.get?_eq_getElem? l1 i1) ▸ ha
      refine ⟨a, i1 + 1, i2, ?_, Or.inl ⟨i1, le_refl _, ha⟩, Nat.le_succ _,
        le_refl _, by omega, ?_⟩
      · cases side <;> simp [mergeStep, Nat.not_le.mpr h1, h2, ha2, copy_level_eq]
      · intro s1 _ y hy
        rcases hy with ⟨j, hj, hg⟩ | hy
        · exact sortedSide_get s1 (by omega) ha hg
        · exact absurd hy (not_inRest_of_length_le (by omega) y)
    · push_neg at h2
      have hgt1 : i1 < l1.length := by omega
      have hgt2 : i2 < l2.length := by omega
      obtain ⟨a, ha⟩ : ∃ a, l1.get? i1 = some a :=
        ⟨l1.get ⟨i1, hgt1⟩, List.get?_eq_get hgt1⟩
      obtain ⟨b, hb⟩ : ∃ b, l2.get? i2 = some b :=
        ⟨l2.get ⟨i2, hgt2⟩, List.get?_eq_get hgt2⟩
      have ha2 : l1[i1]? = some a := (List.get?_eq_getElem? l1 i1) ▸ ha
      have hb2 : l2[i2]? = some b := (List.get?_eq_getElem? l2 i2) ▸ hb
      cases side
      · by_cases hc : a.price > b.price
        · refine ⟨a, i1 + 1, i2, ?_, Or.inl ⟨i1, le_refl _, ha⟩, Nat.le_succ _,
            le_refl _, by omega, ?_⟩
          · have hclt : b.price < a.price := hc
            simp [mergeStep, Nat.not_le.mpr h1, Nat.not_le.mpr h2, ha2, hb2,
              hclt, copy_level_eq]
          · intro s1 s2 y hy
            rcases hy with ⟨j, hj, hg⟩ | ⟨j, hj, hg⟩
            · exact sortedSide_get s1 (by omega) ha hg
            · have hby : sideLE false b y := sortedSide_get s2 hj hb hg
              rw [sideLE_false_iff] at hby ⊢
              exact le_trans hby (le_of_lt hc)
        · refine ⟨b, i1, i2 + 1, ?_, Or.inr ⟨i2, le_refl _, hb⟩, le_refl _,
            Nat.le_succ _, by omega, ?_⟩
          · have hclt : ¬ b.price < a.price := hc
            simp [mergeStep, Nat.not_le.mpr h1, Nat.not_le.mpr h2, ha2, hb2,
              hclt, copy_level_eq]
          · intro s1 s2 y hy
            rcases hy with ⟨j, hj, hg⟩ | ⟨j, hj, hg⟩
            · have hay : sideLE false a y := sortedSide_get s1 hj ha hg
              rw [sideLE_false_iff] at hay ⊢
              exact le_trans hay (not_lt.mp hc)
            · exact sortedSide_get s2 (by omega) hb hg
      · by_cases hc : a.price > b.price
        · refine ⟨b, i1, i2 + 1, ?_, Or.inr ⟨i2, le_refl _, hb⟩, le_refl _,
            Nat.le_succ _, by omega, ?_⟩
          · have hclt : b.price < a.price := hc
            simp [mergeStep, Nat.not_le.mpr h1, Nat.not_le.mpr h2, ha2, hb2,
              hclt, copy_level_eq]
          · intro s1 s2 y hy
            rcases hy with ⟨j, hj, hg⟩ | ⟨j, hj, hg⟩
            · have hay : sideLE true a y := sortedSide_get s1 hj ha hg
              rw [sideLE_true_iff] at hay ⊢
              exact le_trans (le_of_lt hc) hay
            · exact sortedSide_get s2 (by omega) hb hg
        · refine ⟨a, i1 + 1, i2, ?_, Or.inl ⟨i1, le_refl _, ha⟩, Nat.le_succ _,
            le_refl _, by omega, ?_⟩
          · have hclt : ¬ b.price < a.price := hc
            simp [mergeStep, Nat.not_le.mpr h1, Nat.not_le.mpr h2, ha2, hb2,
              hclt, copy_level_eq]
          · intro s1 s2 y hy
            rcases hy with ⟨j, hj, hg⟩ | ⟨j, hj, hg⟩
            · exact sortedSide_get s1 (by omega) ha hg
            · have hby : sideLE true b y := sortedSide_get s2 hj hb hg
              rw [sideLE_true_iff] at hby ⊢
              exact le_trans (not_lt.mp hc) hby

/-- merge unfolds exactly as the recursion in the source: return the
accumulator once it reaches capacity, otherwise perform one mergeStep and
recurse on the grown accumulator. -/
theorem merge_eq (merged l1 l2 : List Level) (i1 i2 : Nat) (side : Bool)
    (cap : Nat) :
    merge merged l1 l2 i1 i2 side cap =
      if merged.length = cap then some merged
      else
        match mergeStep l1 l2 i1 i2 side with
        | none => none
        | some (lvl, n1, n2) => merge (merged ++ [lvl]) l1 l2 n1 n2 side cap := by
  by_cases hlen : merged.length = cap
  · have h0 : cap - merged.length = 0 := by omega
    simp [merge, h0, mergeF, hlen]
  · rcases Nat.lt_or_ge merged.length cap with hlt | hge
    · have hsucc : cap - merged.length = (cap - (merged.length + 1)) + 1 := by
        omega
      rw [merge, hsucc]
      simp only [mergeF, if_neg hlen]
      cases hstep : mergeStep l1 l2 i1 i2 side with
      | none => simp
      | some t =>
        obtain ⟨lvl, n1, n2⟩ := t
        have harg : cap - (merged.length + 1) = cap - (merged ++ [lvl]).length := by
          simp
        rw [harg]
        rfl
    · have h0 : cap - merged.length = 0 := by omega
      rw [merge, h0]
      simp only [mergeF, if_neg hlen]
      cases hstep : mergeStep l1 l2 i1 i2 side with
      | none => simp
      | some t =>
        obtain ⟨lvl, n1, n2⟩ := t
        have h1 : cap - (merged ++ [lvl]).length = 0 := by
          simp
          omega
        have h2 : ¬ (merged ++ [lvl]).length = cap := by
          simp
          omega
        show none = mergeF l1 l2 side cap (cap - (merged ++ [lvl]).length)
          (merged ++ [lvl]) n1 n2
        rw [h1]
        have h3 : ¬ (merged.length + 1 = cap) := by omega
        simp [mergeF, h3]

theorem mergeF_some_length (l1 l2 : List Level) (side : Bool) (cap : Nat) :
    ∀ fuel merged i1 i2 out,
      mergeF l1 l2 side cap fuel merged i1 i2 = some out → out.length = cap := by
  intro fuel
  induction fuel with
  | zero =>
    intro merged i1 i2 out h
    by_cases hlen : merged.length = cap
    · simp only [mergeF, if_pos hlen] at h
      cases h
      exact hlen
    · simp [mergeF, hlen] at h
  | succ n ih =>
    intro merged i1 i2 out h
    by_cases hlen : merged.length = cap
    · simp only [mergeF, if_pos hlen] at h
      cases h
      exact hlen
    · simp only [mergeF, if_neg hlen] at h
      cases hstep : mergeStep l1 l2 i1 i2 side with
      | none => rw [hstep] at h; cases h
      | some t =>
        obtain ⟨lvl, n1, n2⟩ := t
        rw [hstep] at h
        exact ih (merged ++ [lvl]) n1 n2 out h

theorem merge_some_length {merged l1 l2 : List Level} {i1 i2 : Nat}
    {side : Bool} {cap : Nat} {out : List Level}
    (h : merge merged l1 l2 i1 i2 side cap = some out) : out.length = cap :=
  mergeF_some_length l1 l2 side cap _ merged i1 i2 out h

/-- Main invariant lemma for Aggregator::merge over two depth arrays: when the
remaining capacity does not exceed the unconsumed entries, the recursion
returns the accumulator extended to exactly the capacity, every appended level
is taken verbatim from one of the inputs, and for sorted inputs the result
extends a sorted accumulator to a sorted output. -/
theorem merge_spec (side : Bool) {l1 l2 : List Level}
    (hl1 : l1.length = DEPTH) (hl2 : l2.length = DEPTH) (cap : Nat) :
    ∀ n merged i1 i2,
      cap - merged.length = n →
      merged.length ≤ cap →
      cap - merged.length ≤ (DEPTH - i1) + (DEPTH - i2) →
      ∃ rest, merge merged l1 l2 i1 i2 side cap = some (merged ++ rest) ∧
        (merged ++ rest).length = cap ∧
        (∀ x ∈ rest, x ∈ l1 ∨ x ∈ l2) ∧
        (sortedSide side l1 → sortedSide side l2 →
          List.Chain' (sideLE side) merged →
          (∀ x ∈ merged, lowerRest side l1 l2 i1 i2 x) →
          List.Chain' (sideLE side) (merged ++ rest)) := by
  intro n
  induction n with
  | zero =>
    intro merged i1 i2 hn hle _
    have hlen : merged.length = cap := by omega
    refine ⟨[], ?_, ?_, ?_, ?_⟩
    · rw [merge_eq, if_pos hlen, List.append_nil]
    · rw [List.append_nil]; exact hlen
    · intro x hx; cases hx
    · intro _ _ hchain _; rw [List.append_nil]; exact hchain
  | succ n ih =>
    intro merged i1 i2 hn hle hav
    have hlen : ¬ merged.length = cap := by omega
    have hor : i1 < DEPTH ∨ i2 < DEPTH := by omega
    obtain ⟨lvl, n1, n2, hstep, hmem, hn1, hn2, harith, hlow⟩ :=
      mergeStep_spec side hl1 hl2 i1 i2 hor
    have hlen1 : (merged ++ [lvl]).length = merged.length + 1 := by simp
    obtain ⟨rest, heq, hrest_len, hrest_mem, hcond⟩ :=
      ih (merged ++ [lvl]) n1 n2 (by omega) (by omega) (by omega)
    refine ⟨lvl :: rest, ?_, ?_, ?_, ?_⟩
    · rw [merge_eq, if_neg hlen, hstep]
      show merge (merged ++ [lvl]) l1 l2 n1 n2 side cap =
        some (merged ++ lvl :: rest)
      rw [heq]
      simp
    · have hsh : merged ++ lvl :: rest = (merged ++ [lvl]) ++ rest := by simp
      rw [hsh]
      exact hrest_len
    · intro x hx
      rcases List.mem_cons.mp hx with hx | hx
      · subst hx
        rcases hmem with hm | hm
        · exact Or.inl (inRest_mem hm)
        · exact Or.inr (inRest_mem hm)
      · exact hrest_mem x hx
    · intro s1 s2 hchain hlowinv
      have hchain1 : List.Chain' (sideLE side) (merged ++ [lvl]) := by
        rw [List.chain'_append]
        refine ⟨hchain, List.chain'_singleton lvl, ?_⟩
        intro x hx y hy
        simp only [List.head?_cons, Option.mem_def, Option.some.injEq] at hy
        subst hy
        exact hlowinv x (List.mem_of_mem_getLast? hx) lvl hmem
      have hlowinv1 : ∀ x ∈ merged ++ [lvl], lowerRest side l1 l2 n1 n2 x := by
        intro x hx
        rcases List.mem_append.mp hx with hx | hx
        · intro y hy
          refine hlowinv x hx y ?_
          rcases hy with hy | hy
          · exact Or.inl (inRest_mono hn1 hy)
          · exact Or.inr (inRest_mono hn2 hy)
        · have hxl : x = lvl := by simpa using hx
          subst hxl
          exact hlow s1 s2
      have hout := hcond s1 s2 hchain1 hlowinv1
      have hsh : (merged ++ [lvl]) ++ rest = merged ++ lvl :: rest := by simp
      rwa [hsh] at hout

/-- Bid fixture of tests::should_merge_bids, first source: prices 20 down to
11, amount 13, empty exchange label. -/
def fixture_bids_01 : List Level :=
  [{ price := 20, amount := 13, exchange := "" },
   { price := 19, amount := 13, exchange := "" },
   { price := 18, amount := 13, exchange := "" },
   { price := 17, amount := 13, exchange := "" },
   { price := 16, amount := 13, exchange := "" },
   { price := 15, amount := 13, exchange := "" },
   { price := 14, amount := 13, exchange := "" },
   { price := 13, amount := 13, exchange := "" },
   { price := 12, amount := 13, exchange := "" },
   { price := 11, amount := 13, exchange := "" }]

/-- Bid fixture of tests::should_merge_bids, second source: prices 26 down to
8 in steps of 2, amount 37. -/
def fixture_bids_02 : List Level :=
  [{ price := 26, amount := 37, exchange := "" },
   { price := 24, amount := 37, exchange := "" },
   { price := 22, amount := 37, exchange := "" },
   { price := 20, amount := 37, exchange := "" },
   { price := 18, amount := 37, exchange := "" },
   { price := 16, amount := 37, exchange := "" },
   { price := 14, amount := 37, exchange := "" },
   { price := 12, amount := 37, exchange := "" },
   { price := 10, amount := 37, exchange := "" },
   { price := 8, amount := 37, exchange := "" }]

/-- Ask fixture of tests::should_merge_asks, first source: prices 10 up to 19,
amount 13. -/
def fixture_asks_01 : List Level :=
  [{ price := 10, amount := 13, exchange := "" },
   { price := 11, amount := 13, exchange := "" },
   { price := 12, amount := 13, exchange := "" },
   { price := 13, amount := 13, exchange := "" },
   { price := 14, amount := 13, exchange := "" },
   { price := 15, amount := 13, exchange := "" },
   { price := 16, amount := 13, exchange := "" },
   { price := 17, amount := 13, exchange := "" },
   { price := 18, amount := 13, exchange := "" },
   { price := 19, amount := 13, exchange := "" }]

/-- Ask fixture of tests::should_merge_asks, second source: prices 6 up to 24
in steps of 2, amount 37. -/
def fixture_asks_02 : List Level :=
  [{ price := 6, amount := 37, exchange := "" },
   { price := 8, amount := 37, exchange := "" },
   { price := 10, amount := 37, exchange := "" },
   { price := 12, amount := 37, exchange := "" },
   { price := 14, amount := 37, exchange := "" },
   { price := 16, amount := 37, exchange := "" },
   { price := 18, amount := 37, exchange := "" },
   { price := 20, amount := 37, exchange := "" },
   { price := 22, amount := 37, exchange := "" },
   { price := 24, amount := 37, exchange := "" }]

/-- Expected bid-merge output listed by the claim and asserted by
tests::should_merge_bids. -/
def merged_bids_fixture : List Level :=
  [{ price := 26, amount := 37, exchange := "" },
   { price := 24, amount := 37, exchange := "" },
   { price := 22, amount := 37, exchange := "" },
   { price := 20, amount := 37, exchange := "" },
   { price := 20, amount := 13, exchange := "" },
   { price := 19, amount := 13, exchange := "" },
   { price := 18, amount := 37, exchange := "" },
   { price := 18, amount := 13, exchange := "" },
   { price := 17, amount := 13, exchange := "" },
   { price := 16, amount := 37, exchange := "" }]

/-- Expected ask-merge output listed by the claim and asserted by
tests::should_merge_asks. -/
def merged_asks_fixture : List Level :=
  [{ price := 6, amount := 37, exchange := "" },
   { price := 8, amount := 37, exchange := "" },
   { price := 10, amount := 13, exchange := "" },
   { price := 10, amount := 37, exchange := "" },
   { price := 11, amount := 13, exchange := "" },
   { price := 12, amount := 13, exchange := "" },
   { price := 12, amount := 37, exchange := "" },
   { price := 13, amount := 13, exchange := "" },
   { price := 14, amount := 13, exchange := "" },
   { price := 14, amount := 37, exchange := "" }]

def snapshot_01 : OrderbookSnapshot :=
  { bids := fixture_bids_01, asks := fixture_asks_01 }

def snapshot_02 : OrderbookSnapshot :=
  { bids := fixture_bids_02, asks := fixture_asks_02 }

/-- C3: on the concrete fixtures of the unit tests, merge returns exactly the
listed outputs: bids 26/37, 24/37, 22/37, 20/37, 20/13, 19/13, 18/37, 18/13,
17/13, 16/37 and asks 6/37, 8/37, 10/13, 10/37, 11/13, 12/13, 12/37, 13/13,
14/13, 14/37. -/
theorem merge_concrete_fixtures :
    merge [] fixture_bids_01 fixture_bids_02 0 0 false DEPTH =
      some merged_bids_fixture ∧
    merge [] fixture_asks_01 fixture_asks_02 0 0 true DEPTH =
      some merged_asks_fixture := by
  constructor <;> decide

/-- C1: for two depth-10 arrays sorted best-first for the given side
(descending price for bids, ascending for asks) and a merge capacity of at
most 2 N (the program uses 10 and its tests also 20), merge started at cursor
positions zero produces a sequence sorted in the side order, of length
min(capacity, 2 N), in which every emitted level is verbatim an entry of one
of the two inputs. -/
theorem merge_sorted_length_verbatim (side : Bool) (l1 l2 : List Level)
    (hl1 : l1.length = DEPTH) (hl2 : l2.length = DEPTH)
    (cap : Nat) (hcap : cap ≤ 2 * DEPTH)
    (hs1 : sortedSide side l1) (hs2 : sortedSide side l2) :
    ∃ out, merge [] l1 l2 0 0 side cap = some out ∧
      out.length = min cap (2 * DEPTH) ∧
      sortedSide side out ∧
      ∀ x ∈ out, x ∈ l1 ∨ x ∈ l2 := by
  obtain ⟨rest, heq, hlen, hmem, hcond⟩ :=
    merge_spec side hl1 hl2 cap (cap - List.length []) [] 0 0 rfl
      (by simp) (by simp only [List.length_nil, Nat.sub_zero]; omega)
  refine ⟨[] ++ rest, heq, ?_, ?_, ?_⟩
  · rw [hlen]
    omega
  · exact hcond hs1 hs2 List.chain'_nil (by intro x hx; cases hx)
  · intro x hx
    exact hmem x (by simpa using hx)

theorem merge_sorted_length_verbatim_witness :
    ∃ out, merge [] fixture_asks_01 fixture_asks_02 0 0 true DEPTH = some out ∧
      out.length = min DEPTH (2 * DEPTH) ∧
      sortedSide true out ∧
      ∀ x ∈ out, x ∈ fixture_asks_01 ∨ x ∈ fixture_asks_02 :=
  merge_sorted_length_verbatim true fixture_asks_01 fixture_asks_02 (by decide)
    (by decide) DEPTH (by decide) (by decide) (by decide)

/-- C10: for depth-10 inputs and any starting cursor pair and accumulator,
whenever the remaining capacity does not exceed the total number of
unconsumed entries, the recursive merge returns (terminates without any
out-of-bounds input access, which the embedding models as none) and appends
exactly the remaining capacity many levels, one per recursive step, so the
recursion depth is bounded by the capacity. -/
theorem merge_terminates_no_oob (l1 l2 merged : List Level) (i1 i2 : Nat)
    (side : Bool) (cap : Nat)
    (hl1 : l1.length = DEPTH) (hl2 : l2.length = DEPTH)
    (hacc : merged.length ≤ cap)
    (hav : cap - merged.length ≤ (DEPTH - i1) + (DEPTH - i2)) :
    ∃ rest, merge merged l1 l2 i1 i2 side cap = some (merged ++ rest) ∧
      (merged ++ rest).length = cap ∧
      rest.length = cap - merged.length := by
  obtain ⟨rest, heq, hlen, _, _⟩ :=
    merge_spec side hl1 hl2 cap (cap - merged.length) merged i1 i2 rfl hacc hav
  refine ⟨rest, heq, hlen, ?_⟩
  have hsum : merged.length + rest.length = cap := by
    simpa using hlen
  omega

theorem merge_terminates_no_oob_witness :
    ∃ rest, merge [] fixture_bids_01 fixture_bids_02 3 7 false DEPTH =
        some ([] ++ rest) ∧
      ([] ++ rest).length = DEPTH ∧
      rest.length = DEPTH - List.length ([] : List Level) :=
  merge_terminates_no_oob fixture_bids_01 fixture_bids_02 [] 3 7 false DEPTH
    (by decide) (by decide) (by decide) (by decide)

/-- C2 counterexample: the claim says that on an exact price tie the bid-side
merge emits the first source entry first and the ask-side merge the second
source entry first; on the fixtures of the unit tests the code does the
opposite.  At bid cursors (0, 3) both current entries have price 20 and the
emitted level is the second source entry (amount 37), advancing the second
cursor; at ask cursors (0, 2) both current entries have price 10 and the
emitted level is the first source entry (amount 13), advancing the first
cursor. -/
theorem merge_tie_claim_counterexample :
    fixture_bids_01.get? 0 = some { price := 20, amount := 13, exchange := "" } ∧
    fixture_bids_02.get? 3 = some { price := 20, amount := 37, exchange := "" } ∧
    mergeStep fixture_bids_01 fixture_bids_02 0 3 false =
      some ({ price := 20, amount := 37, exchange := "" }, 0, 4) ∧
    fixture_asks_01.get? 0 = some { price := 10, amount := 13, exchange := "" } ∧
    fixture_asks_02.get? 2 = some { price := 10, amount := 37, exchange := "" } ∧
    mergeStep fixture_asks_01 fixture_asks_02 0 2 true =
      some ({ price := 10, amount := 13, exchange := "" }, 1, 2) := by
  decide

/-- C2 (amended): whenever the two current cursor entries in a merge have
exactly equal prices, the bid-side merge emits the SECOND source entry
(levels_02) and advances only its cursor, and the ask-side merge emits the
FIRST source entry (levels_01) and advances only its cursor. -/
theorem merge_tie_prefers (l1 l2 merged : List Level) (i1 i2 : Nat)
    (a b : Level) (cap : Nat)
    (h1 : i1 < DEPTH) (h2 : i2 < DEPTH)
    (ha : l1.get? i1 = some a) (hb : l2.get? i2 = some b)
    (htie : a.price = b.price) (hcap : merged.length < cap) :
    mergeStep l1 l2 i1 i2 false = some (b, i1, i2 + 1) ∧
    mergeStep l1 l2 i1 i2 true = some (a, i1 + 1, i2) ∧
    merge merged l1 l2 i1 i2 false cap =
      merge (merged ++ [b]) l1 l2 i1 (i2 + 1) false cap ∧
    merge merged l1 l2 i1 i2 true cap =
      merge (merged ++ [a]) l1 l2 (i1 + 1) i2 true cap := by
  have ha2 : l1[i1]? = some a := (List.get?_eq_getElem? l1 i1) ▸ ha
  have hb2 : l2[i2]? = some b := (List.get?_eq_getElem? l2 i2) ▸ hb
  have hngt : ¬ b.price < a.price := by
    rw [htie]
    exact lt_irrefl _
  have hsf : mergeStep l1 l2 i1 i2 false = some (b, i1, i2 + 1) := by
    simp [mergeStep, Nat.not_le.mpr h1, Nat.not_le.mpr h2, ha2, hb2, hngt,
      copy_level_eq]
  have hst : mergeStep l1 l2 i1 i2 true = some (a, i1 + 1, i2) := by
    simp [mergeStep, Nat.not_le.mpr h1, Nat.not_le.mpr h2, ha2, hb2, hngt,
      copy_level_eq]
  have hlen : ¬ merged.length = cap := by omega
  refine ⟨hsf, hst, ?_, ?_⟩
  · rw [merge_eq, if_neg hlen, hsf]
  · rw [merge_eq, if_neg hlen, hst]

theorem merge_tie_prefers_witness :
    mergeStep fixture_bids_01 fixture_bids_02 0 3 false =
      some ({ price := 20, amount := 37, exchange := "" }, 0, 4) ∧
    mergeStep fixture_bids_01 fixture_bids_02 0 3 true =
      some ({ price := 20, amount := 13, exchange := "" }, 1, 3) ∧
    merge [] fixture_bids_01 fixture_bids_02 0 3 false DEPTH =
      merge ([] ++ [{ price := 20, amount := 37, exchange := "" }])
        fixture_bids_01 fixture_bids_02 0 4 false DEPTH ∧
    merge [] fixture_bids_01 fixture_bids_02 0 3 true DEPTH =
      merge ([] ++ [{ price := 20, amount := 13, exchange := "" }])
        fixture_bids_01 fixture_bids_02 1 3 true DEPTH :=
  merge_tie_prefers fixture_bids_01 fixture_bids_02 [] 0 3
    { price := 20, amount := 13, exchange := "" }
    { price := 20, amount := 37, exchange := "" } DEPTH
    (by decide) (by decide) (by decide) (by decide) (by decide) (by decide)

/-- publish reads only the four stored depth arrays: two states agreeing on
them publish identically. -/
theorem publish_congr {s t : Aggregator}
    (hb1 : s.best_bids_01 = t.best_bids_01)
    (hb2 : s.best_bids_02 = t.best_bids_02)
    (ha1 : s.best_asks_01 = t.best_asks_01)
    (ha2 : s.best_asks_02 = t.best_asks_02) :
    publish s = publish t := by
  simp only [publish, hb1, hb2, ha1, ha2]

/-- Every successful process call publishes: the returned Summary is exactly
what publish yields on the updated state. -/
theorem process_some_publish {st stp : Aggregator} {sid : Nat}
    {snap : OrderbookSnapshot} {out : Output}
    (h : process st sid snap = some (stp, out)) :
    publish stp = some out.summary := by
  rcases sid with _ | _ | n
  · simp only [process] at h
    obtain ⟨s, hpub, heq⟩ := Option.map_eq_some'.mp h
    have h1 := congrArg Prod.fst heq
    have h2 := congrArg Prod.snd heq
    simp only at h1 h2
    rw [← h1, hpub, ← h2]
  · simp only [process] at h
    obtain ⟨s, hpub, heq⟩ := Option.map_eq_some'.mp h
    have h1 := congrArg Prod.fst heq
    have h2 := congrArg Prod.snd heq
    simp only at h1 h2
    rw [← h1, hpub, ← h2]
  · exact Option.noConfusion h

/-- C8: for any source identifier other than 0 and 1, process fails fast with
a panic, modelled as none: no updated state is produced and nothing is
published. -/
theorem process_unknown_source_panics (st : Aggregator) (sid : Nat)
    (snap : OrderbookSnapshot) (h2 : 2 ≤ sid) :
    process st sid snap = none := by
  obtain ⟨n, rfl⟩ : ∃ n, sid = n + 2 := ⟨sid - 2, by omega⟩
  rfl

theorem process_unknown_source_panics_witness :
    process (Aggregator.new "Binance" "Bitstamp") 5 snapshot_01 = none :=
  process_unknown_source_panics (Aggregator.new "Binance" "Bitstamp") 5
    snapshot_01 (by decide)

/-- C4 (code bug witness): two consecutive process calls for source id 1 from
the initial state leave its lead counter at 1, not 2: line 68 of the source
assigns lead_02 = 1 where the parallel source-0 branch increments.  The pair
shown is (lead_01, lead_02) after the second call. -/
theorem process_lead_02_stuck_at_one :
    ((process (Aggregator.new "Binance" "Bitstamp") 1 snapshot_02).bind fun p =>
        process p.1 1 snapshot_02).map
        (fun p => (p.1.lead_01, p.1.lead_02)) = some (0, 1) := by
  decide

/-- C5: on every successful process call a lead warning is emitted if and only
if the reporting source's consecutive-update counter, after the update, is at
least LEAD_TOLERANCE = 3, the warning names that source and its lead, and
publication still occurs (the output summary is exactly what publish yields on
the updated state).  For source id 1 both sides of the iff are always false:
the code checks the just-zeroed lead_01 and the counter lead_02 is set to 1. -/
theorem process_warning_iff (st stp : Aggregator) (sid : Nat)
    (snap : OrderbookSnapshot) (out : Output)
    (h : process st sid snap = some (stp, out)) :
    publish stp = some out.summary ∧
    (sid = 0 →
      ((out.warning.isSome = true ↔ LEAD_TOLERANCE ≤ stp.lead_01) ∧
       ∀ w, out.warning = some w →
         w = log_lead_warning stp.exchange_01_name stp.lead_01)) ∧
    (sid = 1 →
      ((out.warning.isSome = true ↔ LEAD_TOLERANCE ≤ stp.lead_02) ∧
       ∀ w, out.warning = some w →
         w = log_lead_warning stp.exchange_02_name stp.lead_02)) := by
  refine ⟨process_some_publish h, ?_, ?_⟩
  · rintro rfl
    simp only [process] at h
    obtain ⟨s, hpub, heq⟩ := Option.map_eq_some'.mp h
    have h1 := congrArg Prod.fst heq
    have h2 := congrArg Prod.snd heq
    simp only at h1 h2
    rw [← h1, ← h2]
    by_cases hw : LEAD_TOLERANCE ≤ st.lead_01 + 1
    · have hwt : stream_exceeded_lead_tolerance (st.lead_01 + 1) = true := by
        simp [stream_exceeded_lead_tolerance, hw]
      constructor
      · simp [hwt, hw]
      · intro w hwq
        simp only [hwt, if_true] at hwq
        cases hwq
        rfl
    · have hwt : stream_exceeded_lead_tolerance (st.lead_01 + 1) = false := by
        simp [stream_exceeded_lead_tolerance, hw]
      constructor
      · simp [hwt, hw]
      · intro w hwq
        simp only [hwt, if_false] at hwq
        cases hwq
  · rintro rfl
    simp only [process] at h
    obtain ⟨s, hpub, heq⟩ := Option.map_eq_some'.mp h
    have h1 := congrArg Prod.fst heq
    have h2 := congrArg Prod.snd heq
    simp only at h1 h2
    rw [← h1, ← h2]
    constructor
    · simp [stream_exceeded_lead_tolerance, LEAD_TOLERANCE]
    · intro w hwq
      simp [stream_exceeded_lead_tolerance, LEAD_TOLERANCE] at hwq

/-- State after processing snapshot_01 for source id 0 from the initial
state. -/
def state_after_01 : Aggregator :=
  { best_bids_01 := some fixture_bids_01
    best_bids_02 := none
    best_asks_01 := some fixture_asks_01
    best_asks_02 := none
    exchange_01_name := "Binance"
    exchange_02_name := "Bitstamp"
    lead_01 := 1
    lead_02 := 0 }

/-- Output of that call: no warning, and the single-source pass-through
summary with spread 10 - 20 = -10. -/
def output_after_01 : Output :=
  { warning := none
    summary := { spread := (10 : ℚ) - 20
                 bids := fixture_bids_01
                 asks := fixture_asks_01 } }

theorem process_warning_iff_witness :
    publish state_after_01 = some output_after_01.summary ∧
    ((0 : Nat) = 0 →
      ((output_after_01.warning.isSome = true ↔
          LEAD_TOLERANCE ≤ state_after_01.lead_01) ∧
       ∀ w, output_after_01.warning = some w →
         w = log_lead_warning state_after_01.exchange_01_name
           state_after_01.lead_01)) ∧
    ((0 : Nat) = 1 →
      ((output_after_01.warning.isSome = true ↔
          LEAD_TOLERANCE ≤ state_after_01.lead_02) ∧
       ∀ w, output_after_01.warning = some w →
         w = log_lead_warning state_after_01.exchange_02_name
           state_after_01.lead_02)) :=
  process_warning_iff (Aggregator.new "Binance" "Bitstamp") state_after_01 0
    snapshot_01 output_after_01 rfl

/-- C6: on every process call made when both sources have reported (both
stored bid arrays present afterwards), the published Summary has bids and
asks of exactly N = 10 entries each (the merge capacity, not 2 N), and its
spread is the merged asks first-level price minus the merged bids
first-level price, with no correction when that difference is negative. -/
theorem process_merged_capped_spread (st stp : Aggregator) (sid : Nat)
    (snap : OrderbookSnapshot) (out : Output)
    (h : process st sid snap = some (stp, out))
    (h01 : stp.best_bids_01.isSome = true)
    (h02 : stp.best_bids_02.isSome = true) :
    out.summary.bids.length = DEPTH ∧ out.summary.asks.length = DEPTH ∧
    ∃ a b, out.summary.asks.head? = some a ∧ out.summary.bids.head? = some b ∧
      out.summary.spread = a.price - b.price := by
  have hpub : publish stp = some out.summary := process_some_publish h
  obtain ⟨b1, hb1⟩ := Option.isSome_iff_exists.mp h01
  obtain ⟨b2, hb2⟩ := Option.isSome_iff_exists.mp h02
  simp only [publish, hb1, hb2, Option.isSome_some, Bool.and_self, if_true,
    Option.some_bind] at hpub
  rw [Option.bind_eq_some] at hpub
  obtain ⟨a1, ha1, hpub⟩ := hpub
  rw [Option.bind_eq_some] at hpub
  obtain ⟨a2, ha2, hpub⟩ := hpub
  rw [Option.bind_eq_some] at hpub
  obtain ⟨mb, hmb, hpub⟩ := hpub
  rw [Option.bind_eq_some] at hpub
  obtain ⟨ma, hma, hpub⟩ := hpub
  rw [Option.bind_eq_some] at hpub
  obtain ⟨fa, hfa, hpub⟩ := hpub
  rw [Option.map_eq_some'] at hpub
  obtain ⟨fb, hfb, hsum⟩ := hpub
  refine ⟨?_, ?_, fa, fb, ?_, ?_, ?_⟩
  · rw [← hsum]
    exact merge_some_length hmb
  · rw [← hsum]
    exact merge_some_length hma
  · rw [← hsum]
    exact hfa
  · rw [← hsum]
    exact hfb
  · rw [← hsum]

/-- State holding only the second source, as after one process call for
source id 1 from the initial state. -/
def state_after_02 : Aggregator :=
  { best_bids_01 := none
    best_bids_02 := some fixture_bids_02
    best_asks_01 := none
    best_asks_02 := some fixture_asks_02
    exchange_01_name := "Binance"
    exchange_02_name := "Bitstamp"
    lead_01 := 0
    lead_02 := 1 }

/-- State after both sources have reported their fixtures. -/
def state_both : Aggregator :=
  { best_bids_01 := some fixture_bids_01
    best_bids_02 := some fixture_bids_02
    best_asks_01 := some fixture_asks_01
    best_asks_02 := some fixture_asks_02
    exchange_01_name := "Binance"
    exchange_02_name := "Bitstamp"
    lead_01 := 1
    lead_02 := 0 }

/-- Output of the merging call: no warning, merged fixtures, spread
6 - 26 = -20. -/
def output_both : Output :=
  { warning := none
    summary := { spread := (6 : ℚ) - 26
                 bids := merged_bids_fixture
                 asks := merged_asks_fixture } }

theorem process_merged_capped_spread_witness :
    output_both.summary.bids.length = DEPTH ∧
    output_both.summary.asks.length = DEPTH ∧
    ∃ a b, output_both.summary.asks.head? = some a ∧
      output_both.summary.bids.head? = some b ∧
      output_both.summary.spread = a.price - b.price :=
  process_merged_capped_spread state_after_02 state_both 0 snapshot_01
    output_both rfl rfl rfl

/-- C7: a process call made while only one source has ever reported (the
other stored bid array is still none afterwards) publishes exactly that
source's own stored bid and ask arrays, level for level, with spread equal to
its own first ask price minus its own first bid price. -/
theorem process_single_source_passthrough (st stp : Aggregator) (sid : Nat)
    (snap : OrderbookSnapshot) (out : Output)
    (h : process st sid snap = some (stp, out)) :
    (stp.best_bids_02 = none →
      stp.best_bids_01 = some out.summary.bids ∧
      stp.best_asks_01 = some out.summary.asks ∧
      ∃ a b, out.summary.asks.head? = some a ∧
        out.summary.bids.head? = some b ∧
        out.summary.spread = a.price - b.price) ∧
    (stp.best_bids_01 = none →
      stp.best_bids_02 = some out.summary.bids ∧
      stp.best_asks_02 = some out.summary.asks ∧
      ∃ a b, out.summary.asks.head? = some a ∧
        out.summary.bids.head? = some b ∧
        out.summary.spread = a.price - b.price) := by
  have hpub : publish stp = some out.summary := process_some_publish h
  constructor
  · intro hn2
    simp only [publish, hn2, Option.isSome_none, Bool.and_false,
      Bool.false_eq_true, if_false] at hpub
    by_cases hc1 : stp.best_bids_01.isSome = true
    · obtain ⟨b1, hb1⟩ := Option.isSome_iff_exists.mp hc1
      rw [hb1] at hpub
      simp [Option.some_bind] at hpub
      rw [Option.bind_eq_some] at hpub
      obtain ⟨a1, ha1, hpub⟩ := hpub
      rw [Option.bind_eq_some] at hpub
      obtain ⟨fa, hfa, hpub⟩ := hpub
      rw [Option.map_eq_some'] at hpub
      obtain ⟨fb, hfb, hsum⟩ := hpub
      refine ⟨?_, ?_, fa, fb, ?_, ?_, ?_⟩
      · rw [← hsum]; exact hb1
      · rw [← hsum]; exact ha1
      · rw [← hsum]; exact hfa
      · rw [← hsum]; exact hfb
      · rw [← hsum]
    · have hc1f : stp.best_bids_01.isSome = false := by
        revert hc1
        cases stp.best_bids_01.isSome <;> simp
      simp only [hc1f, Bool.false_eq_true, if_false, hn2, Option.none_bind] at hpub
      cases hpub
  · intro hn1
    simp only [publish, hn1, Option.isSome_none, Bool.false_and,
      Bool.false_eq_true, if_false, Option.none_bind] at hpub
    by_cases hc2 : stp.best_bids_02.isSome = true
    · obtain ⟨b2, hb2⟩ := Option.isSome_iff_exists.mp hc2
      rw [hb2] at hpub
      simp [Option.some_bind] at hpub
      rw [Option.bind_eq_some] at hpub
      obtain ⟨a2, ha2, hpub⟩ := hpub
      rw [Option.bind_eq_some] at hpub
      obtain ⟨fa, hfa, hpub⟩ := hpub
      rw [Option.map_eq_some'] at hpub
      obtain ⟨fb, hfb, hsum⟩ := hpub
      refine ⟨?_, ?_, fa, fb, ?_, ?_, ?_⟩
      · rw [← hsum]; exact hb2
      · rw [← hsum]; exact ha2
      · rw [← hsum]; exact hfa
      · rw [← hsum]; exact hfb
      · rw [← hsum]
    · have hc2f : stp.best_bids_02 = none := Option.not_isSome_iff_eq_none.mp hc2
      rw [hc2f, Option.none_bind] at hpub
      cases hpub

theorem process_single_source_passthrough_witness :
    (state_after_01.best_bids_02 = none →
      state_after_01.best_bids_01 = some output_after_01.summary.bids ∧
      state_after_01.best_asks_01 = some output_after_01.summary.asks ∧
      ∃ a b, output_after_01.summary.asks.head? = some a ∧
        output_after_01.summary.bids.head? = some b ∧
        output_after_01.summary.spread = a.price - b.price) ∧
    (state_after_01.best_bids_01 = none →
      state_after_01.best_bids_02 = some output_after_01.summary.bids ∧
      state_after_01.best_asks_02 = some output_after_01.summary.asks ∧
      ∃ a b, output_after_01.summary.asks.head? = some a ∧
        output_after_01.summary.bids.head? = some b ∧
        output_after_01.summary.spread = a.price - b.price) :=
  process_single_source_passthrough (Aggregator.new "Binance" "Bitstamp")
    state_after_01 0 snapshot_01 output_after_01 rfl

/-- C9: reprocessing the identical snapshot for the same source immediately
after a successful process call (so the other source state is unchanged)
succeeds and publishes a Summary equal to the previous one: the counters
change, but the published summary depends only on the stored depth arrays. -/
theorem process_reprocess_same_summary (st st1 : Aggregator) (sid : Nat)
    (snap : OrderbookSnapshot) (o1 : Output)
    (h : process st sid snap = some (st1, o1)) :
    ∃ st2 o2, process st1 sid snap = some (st2, o2) ∧ o2.summary = o1.summary := by
  rcases sid with _ | _ | n
  · simp only [process] at h
    obtain ⟨s, hpub, heq⟩ := Option.map_eq_some'.mp h
    have h1 := congrArg Prod.fst heq
    have h2 := congrArg Prod.snd heq
    simp only at h1 h2
    have hb01 : st1.best_bids_01 = some snap.bids := by rw [← h1]
    have ha01 : st1.best_asks_01 = some snap.asks := by rw [← h1]
    have hpub1 : publish st1 = some s := by rw [← h1]; exact hpub
    have hsum : o1.summary = s := by rw [← h2]
    refine ⟨{ st1 with
        best_bids_01 := some snap.bids
        best_asks_01 := some snap.asks
        lead_01 := st1.lead_01 + 1
        lead_02 := 0 },
      { warning := if stream_exceeded_lead_tolerance (st1.lead_01 + 1) then
            some (log_lead_warning st1.exchange_01_name (st1.lead_01 + 1))
          else none
        summary := s }, ?_, hsum.symm⟩
    have hcong : publish { st1 with
        best_bids_01 := some snap.bids
        best_asks_01 := some snap.asks
        lead_01 := st1.lead_01 + 1
        lead_02 := 0 } = publish st1 :=
      publish_congr hb01.symm rfl ha01.symm rfl
    have hdef : process st1 0 snap =
        (publish { st1 with
          best_bids_01 := some snap.bids
          best_asks_01 := some snap.asks
          lead_01 := st1.lead_01 + 1
          lead_02 := 0 }).map fun s2 =>
          ({ st1 with
            best_bids_01 := some snap.bids
            best_asks_01 := some snap.asks
            lead_01 := st1.lead_01 + 1
            lead_02 := 0 },
           { warning := if stream_exceeded_lead_tolerance (st1.lead_01 + 1) then
                some (log_lead_warning st1.exchange_01_name (st1.lead_01 + 1))
              else none
             summary := s2 }) := rfl
    rw [hdef, hcong, hpub1]
    rfl
  · simp only [process] at h
    obtain ⟨s, hpub, heq⟩ := Option.map_eq_some'.mp h
    have h1 := congrArg Prod.fst heq
    have h2 := congrArg Prod.snd heq
    simp only at h1 h2
    have hb02 : st1.best_bids_02 = some snap.bids := by rw [← h1]
    have ha02 : st1.best_asks_02 = some snap.asks := by rw [← h1]
    have hpub1 : publish st1 = some s := by rw [← h1]; exact hpub
    have hsum : o1.summary = s := by rw [← h2]
    refine ⟨{ st1 with
        best_bids_02 := some snap.bids
        best_asks_02 := some snap.asks
        lead_01 := 0
        lead_02 := 1 },
      { warning := if stream_exceeded_lead_tolerance 0 then
            some (log_lead_warning st1.exchange_02_name 1)
          else none
        summary := s }, ?_, hsum.symm⟩
    have hcong : publish { st1 with
        best_bids_02 := some snap.bids
        best_asks_02 := some snap.asks
        lead_01 := 0
        lead_02 := 1 } = publish st1 :=
      publish_congr rfl hb02.symm rfl ha02.symm
    have hdef : process st1 1 snap =
        (publish { st1 with
          best_bids_02 := some snap.bids
          best_asks_02 := some snap.asks
          lead_01 := 0
          lead_02 := 1 }).map fun s2 =>
          ({ st1 with
            best_bids_02 := some snap.bids
            best_asks_02 := some snap.asks
            lead_01 := 0
            lead_02 := 1 },
           { warning := if stream_exceeded_lead_tolerance 0 then
                some (log_lead_warning st1.exchange_02_name 1)
              else none
             summary := s2 }) := rfl
    rw [hdef, hcong, hpub1]
    rfl
  · exact Option.noConfusion h

theorem process_reprocess_same_summary_witness :
    ∃ st2 o2, process state_after_01 0 snapshot_01 = some (st2, o2) ∧
      o2.summary = output_after_01.summary :=
  process_reprocess_same_summary (Aggregator.new "Binance" "Bitstamp")
    state_after_01 0 snapshot_01 output_after_01 rfl
